import Mathlib

/-
Verification of the Speakez repository, whose single source file is the
bridging header src/Speakez/Speakez-Bridging-Header.h.

The file is embedded verbatim as its list of text lines.  A line
classifier, written from the text of the file, recognises comment lines,
blank lines, the include-guard directives, and quoted #include
directives; every other line would be classified as original code.  A
small preprocessor model executes the classified lines: it tracks the
set of defined macros and a conditional-inclusion stack, and records the
build-time effects (macro definitions and include requests) the file
produces.  All properties of the header are proved against these
definitions.
-/

namespace Speakez

/-- The double-quote character, written by code point so that the
    parsing helpers stay readable. -/
def dquote : Char := Char.ofNat 34

/-- The space character, written by code point. -/
def spaceChar : Char := Char.ofNat 32

/-- The seventeen lines of src/Speakez/Speakez-Bridging-Header.h,
    verbatim and in order. -/
def bridgingHeaderLines : List String :=
  [ "//"
  , "//  Speakez-Bridging-Header.h"
  , "//  Speakez"
  , "//"
  , "//  Bridging header for whisper.cpp integration"
  , "//"
  , ""
  , "#ifndef Speakez_Bridging_Header_h"
  , "#define Speakez_Bridging_Header_h"
  , ""
  , "// Include ggml headers first"
  , "#include \"ggml.h\""
  , ""
  , "// Include whisper.cpp header"
  , "#include \"whisper.h\""
  , ""
  , "#endif /* Speakez_Bridging_Header_h */" ]

/-- The include-guard macro named by the header. -/
def guardMacro : String := "Speakez_Bridging_Header_h"

/-- `startsWithChars pre cs` holds when the character list `cs` starts
    with the character list `pre`. -/
def startsWithChars : List Char → List Char → Bool
  | [], _ => true
  | _ :: _, [] => false
  | p :: ps, c :: cs => p == c && startsWithChars ps cs

/-- Does the line `l` start with the literal text `pre`? -/
def lineStartsWith (l pre : String) : Bool :=
  startsWithChars pre.data l.data

/-- A line consisting only of spaces (in particular, the empty line). -/
def isBlankLine (l : String) : Bool :=
  l.data.all (fun c => c == spaceChar)

/-- A C++ line comment: the line starts with two slashes. -/
def isCommentLine (l : String) : Bool :=
  lineStartsWith l "//"

/-- A preprocessor directive: the line starts with a hash. -/
def isDirectiveLine (l : String) : Bool :=
  lineStartsWith l "#"

/-- After the literal prefix `pre`, the token of `l` up to (excluding)
    the character `stop`; `none` when `l` does not start with `pre`. -/
def tokenAfter (pre : String) (stop : Char) (l : String) : Option String :=
  if lineStartsWith l pre then
    some (String.mk ((l.data.drop pre.data.length).takeWhile (fun c => c ≠ stop)))
  else none

/-- The macro tested by an `#ifndef` directive, when the line is one. -/
def ifndefTarget (l : String) : Option String :=
  tokenAfter "#ifndef " spaceChar l

/-- The macro defined by a `#define` directive, when the line is one. -/
def defineTarget (l : String) : Option String :=
  tokenAfter "#define " spaceChar l

/-- The header named by a quoted `#include` directive, when the line is
    one. -/
def includeTarget (l : String) : Option String :=
  tokenAfter "#include \"" dquote l

/-- An `#endif` directive (possibly followed by a trailing comment). -/
def isEndifLine (l : String) : Bool :=
  lineStartsWith l "#endif"

/-- The kind of a source line of the header.  `other` carries the text
    of a line that is none of the recognised preprocessing or comment
    forms, i.e. a line of original code. -/
inductive LineKind where
  | comment : LineKind
  | blank : LineKind
  | guardOpen : String → LineKind
  | guardDefine : String → LineKind
  | includeDirective : String → LineKind
  | guardClose : LineKind
  | other : String → LineKind
deriving DecidableEq, Repr

/-- Classify one source line. -/
def classifyLine (l : String) : LineKind :=
  if isBlankLine l then .blank
  else if isCommentLine l then .comment
  else
    match ifndefTarget l with
    | some m => .guardOpen m
    | none =>
      match defineTarget l with
      | some m => .guardDefine m
      | none =>
        match includeTarget l with
        | some h => .includeDirective h
        | none => if isEndifLine l then .guardClose else .other l

/-- A line of original code: anything the classifier cannot recognise as
    a comment, a blank, or one of the header's preprocessing forms. -/
def isCodeLine (l : String) : Bool :=
  match classifyLine l with
  | .other _ => true
  | _ => false

/-- A build-time effect of preprocessing: defining a macro, or
    requesting that an external header be resolved and included. -/
inductive PPEffect where
  | defineMacro : String → PPEffect
  | includeRequest : String → PPEffect
deriving DecidableEq, Repr, BEq

/-- The preprocessor state: the macros currently defined, the stack of
    conditional-inclusion flags, and the effects emitted so far. -/
structure PPState where
  defined : List String
  stack : List Bool
  effects : List PPEffect
deriving DecidableEq, Repr

/-- Are we inside only active conditional branches? -/
def ppActive (stack : List Bool) : Bool :=
  stack.all (fun b => b)

/-- One preprocessing step on a classified line. -/
def ppStep (st : PPState) (k : LineKind) : PPState :=
  match k with
  | .guardOpen m =>
      { st with stack := (ppActive st.stack && !(st.defined.contains m)) :: st.stack }
  | .guardClose =>
      { st with stack := st.stack.tail }
  | .guardDefine m =>
      if ppActive st.stack then
        { st with defined := m :: st.defined, effects := st.effects ++ [.defineMacro m] }
      else st
  | .includeDirective h =>
      if ppActive st.stack then
        { st with effects := st.effects ++ [.includeRequest h] }
      else st
  | _ => st

/-- Preprocess a list of source lines from the given set of already
    defined macros. -/
def ppRun (defined : List String) (lines : List String) : PPState :=
  (lines.map classifyLine).foldl ppStep
    { defined := defined, stack := [], effects := [] }

/-- The headers whose inclusion the preprocessing requested, in order. -/
def includeRequests (st : PPState) : List String :=
  st.effects.filterMap
    (fun e => match e with | .includeRequest h => some h | _ => none)

/-- The macros the preprocessing defined, in order. -/
def macroDefs (st : PPState) : List String :=
  st.effects.filterMap
    (fun e => match e with | .defineMacro m => some m | _ => none)

/-- Resolve every include request of an effect trace against an
    availability predicate; the first unresolvable header is a
    build-time error. -/
def resolveIncludes (resolve : String → Bool) : List PPEffect → Except String (List PPEffect)
  | [] => .ok []
  | e :: es =>
    match e with
    | .includeRequest h =>
        if resolve h then (resolveIncludes resolve es).map (fun r => e :: r)
        else .error h
    | _ => (resolveIncludes resolve es).map (fun r => e :: r)

/-- Build the header in a fresh translation unit: preprocess it and
    resolve the headers it requests. -/
def buildHeader (resolve : String → Bool) : Except String (List PPEffect) :=
  resolveIncludes resolve (ppRun [] bridgingHeaderLines).effects

/-- The classification of the seventeen lines of the header. -/
theorem classified_header :
    bridgingHeaderLines.map classifyLine =
      [ .comment, .comment, .comment, .comment, .comment, .comment, .blank,
        .guardOpen guardMacro, .guardDefine guardMacro, .blank,
        .comment, .includeDirective "ggml.h", .blank,
        .comment, .includeDirective "whisper.h", .blank, .guardClose ] := by
  rfl

/-- Preprocessing the header from a fresh state. -/
theorem ppRun_nil :
    ppRun [] bridgingHeaderLines =
      { defined := [guardMacro], stack := [],
        effects := [.defineMacro guardMacro,
                    .includeRequest "ggml.h", .includeRequest "whisper.h"] } := by
  rfl

/-- Preprocessing the header from an arbitrary macro state: if the guard
    is already defined nothing happens, otherwise the guard is defined
    and the two headers are requested in order. -/
theorem ppRun_header (d : List String) :
    ppRun d bridgingHeaderLines =
      if d.contains guardMacro then
        { defined := d, stack := [], effects := [] }
      else
        { defined := guardMacro :: d, stack := [],
          effects := [.defineMacro guardMacro,
                      .includeRequest "ggml.h", .includeRequest "whisper.h"] } := by
  unfold ppRun
  rw [classified_header]
  by_cases hc : guardMacro ∈ d <;>
    simp [List.foldl, ppStep, ppActive, hc]

/-- C1: The entire content of the bridging header is an include-guard,
    comment lines, blank lines, and exactly two include directives; no
    line of the file is original code. -/
theorem header_is_guard_comments_and_two_includes :
    bridgingHeaderLines.map classifyLine =
      [ .comment, .comment, .comment, .comment, .comment, .comment, .blank,
        .guardOpen guardMacro, .guardDefine guardMacro, .blank,
        .comment, .includeDirective "ggml.h", .blank,
        .comment, .includeDirective "whisper.h", .blank, .guardClose ] ∧
    bridgingHeaderLines.filter isCodeLine = [] ∧
    (bridgingHeaderLines.filterMap includeTarget).length = 2 := by
  refine ⟨by rfl, by rfl, by rfl⟩

/-- C2: The only external interfaces the file references are exactly
    "ggml.h" and "whisper.h", and every header any preprocessing of the
    file ever requests is one of these two. -/
theorem header_references_exactly_ggml_and_whisper (d : List String) :
    bridgingHeaderLines.filterMap includeTarget = ["ggml.h", "whisper.h"] ∧
    (includeRequests (ppRun d bridgingHeaderLines)).all
      (fun h => h == "ggml.h" || h == "whisper.h") = true := by
  refine ⟨by rfl, ?_⟩
  rw [ppRun_header]
  by_cases hc : guardMacro ∈ d <;> simp [includeRequests, hc]

/-- C2 witness: the references property evaluated on a fresh
    translation unit. -/
theorem header_references_exactly_ggml_and_whisper_fresh :
    bridgingHeaderLines.filterMap includeTarget = ["ggml.h", "whisper.h"] ∧
    (includeRequests (ppRun [] bridgingHeaderLines)).all
      (fun h => h == "ggml.h" || h == "whisper.h") = true :=
  header_references_exactly_ggml_and_whisper []

/-- C3: The file defines no data structures, control flow, state, or
    protocol: every line is a blank, a comment, or a preprocessor
    directive, and no line classifies as original code. -/
theorem header_no_code_constructs :
    bridgingHeaderLines.all
      (fun l => isBlankLine l || isCommentLine l || isDirectiveLine l) = true ∧
    (bridgingHeaderLines.map classifyLine).all
      (fun k => match k with | .other _ => false | _ => true) = true := by
  refine ⟨by rfl, by rfl⟩

/-- C4: The file defines no runtime error path: it contains no runtime
    code at all, and building it either succeeds or fails at build time
    with exactly the first of the two included headers that does not
    resolve. -/
theorem header_fails_only_at_build_time (resolve : String → Bool) :
    buildHeader resolve =
      (if resolve "ggml.h" then
        (if resolve "whisper.h" then
          .ok [.defineMacro guardMacro,
               .includeRequest "ggml.h", .includeRequest "whisper.h"]
        else .error "whisper.h")
      else .error "ggml.h") ∧
    bridgingHeaderLines.filter isCodeLine = [] := by
  refine ⟨?_, by rfl⟩
  unfold buildHeader
  rw [ppRun_nil]
  cases h1 : resolve "ggml.h" <;> cases h2 : resolve "whisper.h" <;>
    simp [resolveIncludes, Except.map, h1, h2]

/-- C4 witness: when both headers resolve, the build succeeds. -/
theorem header_fails_only_at_build_time_resolved :
    buildHeader (fun _ => true) =
      .ok [.defineMacro guardMacro,
           .includeRequest "ggml.h", .includeRequest "whisper.h"] ∧
    bridgingHeaderLines.filter isCodeLine = [] := by
  simpa using header_fails_only_at_build_time (fun _ => true)

/-- C5: The file introduces no observable surface of its own: from any
    macro state, preprocessing it adds at most the guard macro to the
    defined set and leaves everything else unchanged, and its only
    effects are defining the guard and requesting the two headers. -/
theorem header_frame_effects (d : List String) :
    (ppRun d bridgingHeaderLines).defined =
      (if d.contains guardMacro then d else guardMacro :: d) ∧
    ((ppRun d bridgingHeaderLines).effects).all
      (fun e => e == .defineMacro guardMacro ||
                e == .includeRequest "ggml.h" ||
                e == .includeRequest "whisper.h") = true := by
  rw [ppRun_header]
  by_cases hc : guardMacro ∈ d <;> simp [hc]
  decide

/-- C5 witness: the frame property evaluated on a fresh translation
    unit. -/
theorem header_frame_effects_fresh :
    (ppRun [] bridgingHeaderLines).defined =
      (if ([] : List String).contains guardMacro then [] else [guardMacro]) ∧
    ((ppRun [] bridgingHeaderLines).effects).all
      (fun e => e == .defineMacro guardMacro ||
                e == .includeRequest "ggml.h" ||
                e == .includeRequest "whisper.h") = true :=
  header_frame_effects []

/-- C6: No concurrency behaviour originates in the file: its complete
    effect trace, from any macro state, is either empty or exactly one
    macro definition followed by two include requests — no thread
    creation, scheduling, or shared mutable state appears. -/
theorem header_no_concurrency_effects (d : List String) :
    (ppRun d bridgingHeaderLines).effects = [] ∨
    (ppRun d bridgingHeaderLines).effects =
      [.defineMacro guardMacro,
       .includeRequest "ggml.h", .includeRequest "whisper.h"] := by
  rw [ppRun_header]
  by_cases hc : guardMacro ∈ d <;> simp [hc]

/-- C6 witness: the effect-trace property evaluated on a fresh
    translation unit. -/
theorem header_no_concurrency_effects_fresh :
    (ppRun [] bridgingHeaderLines).effects = [] ∨
    (ppRun [] bridgingHeaderLines).effects =
      [.defineMacro guardMacro,
       .includeRequest "ggml.h", .includeRequest "whisper.h"] :=
  header_no_concurrency_effects []

/-- C7: In every preprocessing of the file that includes "whisper.h" at
    all, "ggml.h" is requested strictly before "whisper.h". -/
theorem ggml_included_before_whisper (d : List String)
    (h : "whisper.h" ∈ includeRequests (ppRun d bridgingHeaderLines)) :
    includeRequests (ppRun d bridgingHeaderLines) = ["ggml.h", "whisper.h"] ∧
    (includeRequests (ppRun d bridgingHeaderLines)).indexOf "ggml.h" <
      (includeRequests (ppRun d bridgingHeaderLines)).indexOf "whisper.h" := by
  rw [ppRun_header] at h ⊢
  by_cases hc : guardMacro ∈ d
  · simp [includeRequests, hc] at h
  · simp [includeRequests, hc]

/-- C7 witness: on a fresh translation unit "whisper.h" is requested,
    and "ggml.h" comes strictly before it. -/
theorem ggml_included_before_whisper_fresh :
    includeRequests (ppRun [] bridgingHeaderLines) = ["ggml.h", "whisper.h"] ∧
    (includeRequests (ppRun [] bridgingHeaderLines)).indexOf "ggml.h" <
      (includeRequests (ppRun [] bridgingHeaderLines)).indexOf "whisper.h" :=
  ggml_included_before_whisper [] (by decide)

/-- C8: Inclusion is idempotent: after a first preprocessing of the
    header, preprocessing it again from the resulting macro state emits
    no effect, so the headers made visible by two inclusions are those
    of the first alone. -/
theorem header_inclusion_idempotent (d : List String) :
    ppRun (ppRun d bridgingHeaderLines).defined bridgingHeaderLines =
      { defined := (ppRun d bridgingHeaderLines).defined,
        stack := [], effects := [] } ∧
    includeRequests (ppRun d bridgingHeaderLines) ++
      includeRequests (ppRun (ppRun d bridgingHeaderLines).defined bridgingHeaderLines) =
      includeRequests (ppRun d bridgingHeaderLines) := by
  have h1 := ppRun_header d
  have key : ppRun (ppRun d bridgingHeaderLines).defined bridgingHeaderLines =
      { defined := (ppRun d bridgingHeaderLines).defined,
        stack := [], effects := [] } := by
    by_cases hc : guardMacro ∈ d <;> simp [hc] at h1 <;>
      rw [h1] <;> simp [h1, ppRun_header]
  refine ⟨key, ?_⟩
  rw [key]
  simp [includeRequests]

/-- C8 witness: idempotence evaluated on a fresh translation unit. -/
theorem header_inclusion_idempotent_fresh :
    ppRun (ppRun [] bridgingHeaderLines).defined bridgingHeaderLines =
      { defined := (ppRun [] bridgingHeaderLines).defined,
        stack := [], effects := [] } ∧
    includeRequests (ppRun [] bridgingHeaderLines) ++
      includeRequests (ppRun (ppRun [] bridgingHeaderLines).defined bridgingHeaderLines) =
      includeRequests (ppRun [] bridgingHeaderLines) :=
  header_inclusion_idempotent []

/-- C9: The only name the file itself defines is the guard macro: its
    single define directive names the guard, and any preprocessing of
    the file defines either nothing or exactly the guard. -/
theorem guard_macro_only_name_defined (d : List String) :
    bridgingHeaderLines.filterMap defineTarget = [guardMacro] ∧
    (macroDefs (ppRun d bridgingHeaderLines) = [] ∨
     macroDefs (ppRun d bridgingHeaderLines) = [guardMacro]) := by
  refine ⟨by rfl, ?_⟩
  rw [ppRun_header]
  by_cases hc : guardMacro ∈ d <;> simp [macroDefs, hc]

/-- C9 witness: the only-name property evaluated on a fresh translation
    unit. -/
theorem guard_macro_only_name_defined_fresh :
    bridgingHeaderLines.filterMap defineTarget = [guardMacro] ∧
    (macroDefs (ppRun [] bridgingHeaderLines) = [] ∨
     macroDefs (ppRun [] bridgingHeaderLines) = [guardMacro]) :=
  guard_macro_only_name_defined []

end Speakez
